import Mathlib

/-!
A shallow embedding of the Sia renter hostdb registry slice
(`modules/renter/hostdb/hostentry.go`) together with proofs of the
behavioural claims about it.

Modelling conventions:
* Go maps are association lists; lookup returns the value bound to the
  first matching key, assignment prepends after erasing the key, and
  deletion erases every binding of the key (maps have at most one).
* Pointer values (`*hostEntry`) are `Option hostEntry`: `none` is the
  nil pointer.  An operation that would dereference a nil pointer in Go
  (a panic) is embedded as a function returning `Option _`, with `none`
  standing for the panic.
* `time.Time` is an integer timestamp; `time.Since(t)` at instant `now`
  is `now - t`.  `types.Currency` (an unbounded non-negative integer)
  is `Nat`; `Currency.Div64` is `Nat` division, only reached behind a
  non-zero-length guard.
* Collaborators that live outside the embedded file (the address
  validator, the weighted sampler's `RandomHosts`, the scanner) are
  passed in explicitly or carried as opaque function fields, as the
  spec describes them only at their interface boundary.
-/

namespace Sia

/-- `modules.NetAddress` is a string in Go. -/
abbrev NetAddress := String

/-- `types.Currency`: unbounded non-negative integer. -/
abbrev Currency := Nat

/-- `types.BlockHeight`. -/
abbrev BlockHeight := Nat

/-- `time.Time`, as an integer instant. -/
abbrev Timestamp := Int

/-- The `Key []byte` part of a Sia public key; `bytes.Equal` is list
equality (Go treats nil and empty slices as equal, both are `[]`). -/
structure SiaPublicKey where
  key : List Nat
  deriving Repr, DecidableEq

/-- Modelled from the spec: `modules.HostDBEntry` is declared outside the
embedded file.  Per the spec it carries the host's network identity
(`NetAddress`, `PublicKey`) and an advertised-settings snapshot of which
the core only reads the contract price. -/
structure HostDBEntry where
  netAddress : NetAddress
  publicKey : SiaPublicKey
  contractPrice : Currency
  deriving Repr, DecidableEq

/-- The Go zero value `modules.HostDBEntry{}`. -/
def zeroHostDBEntry : HostDBEntry :=
  { netAddress := "", publicKey := { key := [] }, contractPrice := 0 }

/-- `hostEntry` from hostentry.go: an embedded `HostDBEntry` plus
reputation metadata.  Fields not set by a struct literal take Go zero
values. -/
structure hostEntry where
  hostDBEntry : HostDBEntry
  firstSeen : BlockHeight
  weight : Currency
  reliability : Currency
  lastScanned : Timestamp
  lastSeen : Timestamp
  deriving Repr, DecidableEq

/-- Modelled from the spec: `DefaultReliability` is a constant declared
outside the embedded file ("Reliability = default reliability
constant"); its numeric value is opaque to every claim, only its use as
the initial reliability matters. -/
def DefaultReliability : Currency := 20

/-- Modelled from the spec: `uptimeThreshold` is declared outside the
embedded file; the spec fixes it at three days.  Timestamps are in
seconds. -/
def uptimeThreshold : Int := 3 * 24 * 60 * 60

/-- Go map lookup `m[k]` on an association list: the value bound to the
first matching key, if any. -/
def mapFind {β : Type} (l : List (NetAddress × β)) (k : NetAddress) : Option β :=
  match l with
  | [] => none
  | (a, v) :: rest => if a = k then some v else mapFind rest k

/-- Go `delete(m, k)`: erase every binding of `k` (a map holds at most
one). -/
def mapDelete {β : Type} (l : List (NetAddress × β)) (k : NetAddress) :
    List (NetAddress × β) :=
  l.filter (fun p => decide (p.1 ≠ k))

/-- Go map assignment `m[k] = v`. -/
def mapInsert {β : Type} (l : List (NetAddress × β)) (k : NetAddress) (v : β) :
    List (NetAddress × β) :=
  (k, v) :: mapDelete l k

/-- The guarded state of the `HostDB`:
* `allHosts : map[modules.NetAddress]*hostEntry` — the registry;
* `activeHosts : map[modules.NetAddress]*hostNode` — kept as its key
  set; the sampler node attached to each key lives outside the embedded
  file, so detaching a node is modelled as removing its key;
* `scanQueue` — modelled from the spec: `queueHostEntry` is declared
  outside the embedded file; per the spec it hands the entry to the
  scanner pipeline's queue, modelled as appending to a job list;
* `blockHeight` — the consensus height the facade caches;
* `randomHostsFn` — modelled from the spec: `RandomHosts` is declared
  outside the embedded file; it is carried as an opaque collaborator
  mapping a requested count and an exclusion list to a weighted sample. -/
structure HostDB where
  allHosts : List (NetAddress × Option hostEntry)
  activeHosts : List NetAddress
  scanQueue : List hostEntry
  blockHeight : BlockHeight
  randomHostsFn : Nat → List NetAddress → List HostDBEntry

/-- Modelled from the spec: `RandomHosts(n, exclude)` draws up to `n`
distinct weighted entries from the active set; here it defers to the
opaque collaborator carried by the state. -/
def RandomHosts (hdb : HostDB) (n : Nat) (exclude : List NetAddress) :
    List HostDBEntry :=
  hdb.randomHostsFn n exclude

/-- Modelled from the spec: `queueHostEntry` enqueues the entry for the
scanner pipeline. -/
def queueHostEntry (hdb : HostDB) (h : hostEntry) : HostDB :=
  { hdb with scanQueue := hdb.scanQueue ++ [h] }

/-- The `hostEntry` literal built by `insertHost`: `FirstSeen` is the
current height, `Reliability` the default constant, the embedded
`HostDBEntry` is the candidate; the remaining fields are Go zero
values. -/
def newHostEntry (hdb : HostDB) (host : HostDBEntry) : hostEntry :=
  { hostDBEntry := host
    firstSeen := hdb.blockHeight
    weight := 0
    reliability := DefaultReliability
    lastScanned := 0
    lastSeen := 0 }

/-- `insertHost` from hostentry.go.  `isValid` is the external address
validator (`NetAddress.IsValid() == nil`).  Returns `none` exactly when
the Go code would dereference a nil `*hostEntry` stored in the registry
(`knownHost.PublicKey` with `knownHost == nil`); otherwise `some` of
the updated state.  The Go function returns no error value. -/
def insertHost (isValid : NetAddress → Bool) (hdb : HostDB)
    (host : HostDBEntry) : Option HostDB :=
  if isValid host.netAddress = false then
    -- invalid address: log a warning and return with no mutation
    some hdb
  else
    match mapFind hdb.allHosts host.netAddress with
    | some none => none
    | some (some knownHost) =>
      if host.publicKey.key = knownHost.hostDBEntry.publicKey.key then
        -- already known with the same public key: no-op
        some hdb
      else
        let h := newHostEntry hdb host
        some (queueHostEntry
          { hdb with allHosts := mapInsert hdb.allHosts host.netAddress (some h) } h)
    | none =>
      let h := newHostEntry hdb host
      some (queueHostEntry
        { hdb with allHosts := mapInsert hdb.allHosts host.netAddress (some h) } h)

/-- `removeHost` from hostentry.go: drop the address from the active
set (detaching its sampler node) when present, unconditionally delete
it from `allHosts`, and return a nil error.  Deleting an absent key is
a no-op in Go, so the conditional active-set branch is the
unconditional erase. -/
def removeHost (hdb : HostDB) (addr : NetAddress) : HostDB × Option String :=
  ({ hdb with
      activeHosts := hdb.activeHosts.filter (fun a => decide (a ≠ addr))
      allHosts := mapDelete hdb.allHosts addr },
   none)

/-- `Host` from hostentry.go: the public lookup.  Returns the zero
entry and `false` when the address is absent or bound to a nil pointer,
and the stored entry's embedded `HostDBEntry` with `true` otherwise. -/
def Host (hdb : HostDB) (addr : NetAddress) : HostDBEntry × Bool :=
  match mapFind hdb.allHosts addr with
  | none => (zeroHostDBEntry, false)
  | some none => (zeroHostDBEntry, false)
  | some (some entry) => (entry.hostDBEntry, true)

/-- `ActiveHosts` from hostentry.go: snapshot the active count, then
sample the whole active population with no exclusions. -/
def ActiveHosts (hdb : HostDB) : List HostDBEntry :=
  let numHosts := hdb.activeHosts.length
  RandomHosts hdb numHosts []

/-- `AverageContractPrice` from hostentry.go: sample up to 18 hosts,
return the zero currency on an empty sample, otherwise the sum of the
sampled contract prices divided by the actual sample size. -/
def AverageContractPrice (hdb : HostDB) : Currency :=
  let totalPrice : Currency := 0
  let sampleSize : Nat := 18
  let hosts := RandomHosts hdb sampleSize []
  if hosts.length = 0 then
    totalPrice
  else
    (hosts.foldl (fun acc host => acc + host.contractPrice) totalPrice) / hosts.length

/-- `IsOffline` from hostentry.go at instant `now`.  `scan` is
`managedScanHost`, modelled from the spec as an arbitrary state
transformer invoked with the looked-up entry (the probe plus the
under-lock result application).  Returns `none` exactly when the Go
code would dereference a nil `*hostEntry` found in the registry;
otherwise `some (answer, resulting state)`. -/
def IsOffline (scan : HostDB → hostEntry → HostDB) (hdb : HostDB)
    (now : Timestamp) (addr : NetAddress) : Option (Bool × HostDB) :=
  match mapFind hdb.allHosts addr with
  | none => some (false, hdb)
  | some none => none
  | some (some entry) =>
    let lastSeen := entry.lastSeen
    let lastScanned := entry.lastScanned
    if now - lastScanned > uptimeThreshold then
      -- entry not scanned within the window: scan it now, then re-read
      let hdb1 := scan hdb entry
      match mapFind hdb1.allHosts addr with
      | none => some (false, hdb1)
      | some none => none
      | some (some entry1) =>
        some (decide (now - entry1.lastSeen > uptimeThreshold), hdb1)
    else
      some (decide (now - lastSeen > uptimeThreshold), hdb)

/-! Helper lemmas about the Go-map model. -/

theorem mapFind_mapDelete_self {β : Type} (l : List (NetAddress × β)) (k : NetAddress) :
    mapFind (mapDelete l k) k = none := by
  induction l with
  | nil => rfl
  | cons p rest ih =>
    rcases p with ⟨a, v⟩
    by_cases h : a = k
    · simpa [mapDelete, List.filter, h] using ih
    · simpa [mapDelete, List.filter, mapFind, h] using ih

theorem mapFind_mapInsert_self {β : Type} (l : List (NetAddress × β)) (k : NetAddress)
    (v : β) : mapFind (mapInsert l k v) k = some v := by
  simp [mapInsert, mapFind]

theorem mapDelete_of_find_none {β : Type} (l : List (NetAddress × β)) (k : NetAddress)
    (h : mapFind l k = none) : mapDelete l k = l := by
  induction l with
  | nil => rfl
  | cons p rest ih =>
    rcases p with ⟨a, v⟩
    by_cases hak : a = k
    · simp [mapFind, hak] at h
    · simp [mapFind, hak] at h
      simp [mapDelete, List.filter, hak] at ih ⊢
      exact ih h

theorem mapDelete_idem {β : Type} (l : List (NetAddress × β)) (k : NetAddress) :
    mapDelete (mapDelete l k) k = mapDelete l k :=
  mapDelete_of_find_none _ _ (mapFind_mapDelete_self l k)

theorem length_mapDelete_le {β : Type} (l : List (NetAddress × β)) (k : NetAddress) :
    (mapDelete l k).length ≤ l.length :=
  List.length_filter_le _ l

theorem filterNe_of_not_mem (l : List NetAddress) (k : NetAddress) (h : k ∉ l) :
    l.filter (fun a => decide (a ≠ k)) = l := by
  induction l with
  | nil => rfl
  | cons a rest ih =>
    simp only [List.mem_cons, not_or] at h
    have hak : a ≠ k := fun e => h.1 e.symm
    rw [List.filter_cons, if_pos (by simpa using hak), ih h.2]

theorem not_mem_filterNe (l : List NetAddress) (k : NetAddress) :
    k ∉ l.filter (fun a => decide (a ≠ k)) := by
  simp [List.mem_filter]

theorem filterNe_idem (l : List NetAddress) (k : NetAddress) :
    (l.filter (fun a => decide (a ≠ k))).filter (fun a => decide (a ≠ k))
      = l.filter (fun a => decide (a ≠ k)) :=
  filterNe_of_not_mem _ _ (not_mem_filterNe l k)

/-! Concrete sample states for witnessing the theorems on explicit inputs. -/

/-- A sample public key. -/
def sampleKey : SiaPublicKey := { key := [1, 2] }

/-- A second, distinct sample public key. -/
def sampleKey2 : SiaPublicKey := { key := [3] }

/-- A sample candidate host. -/
def sampleHost : HostDBEntry :=
  { netAddress := "h1:9981", publicKey := sampleKey, contractPrice := 10 }

/-- A second sample candidate at a different address. -/
def sampleHost2 : HostDBEntry :=
  { netAddress := "h2:9981", publicKey := sampleKey2, contractPrice := 30 }

/-- A candidate at the first sample's address but with the second key. -/
def sampleHost3 : HostDBEntry :=
  { netAddress := "h1:9981", publicKey := sampleKey2, contractPrice := 12 }

/-- A sample registry record for `sampleHost`, last scanned at instant
100 and last seen at instant 90. -/
def sampleEntry : hostEntry :=
  { hostDBEntry := sampleHost
    firstSeen := 1
    weight := 7
    reliability := 20
    lastScanned := 100
    lastSeen := 90 }

/-- A sample state with one known, active host and an empty sampler. -/
def sampleHDB : HostDB :=
  { allHosts := [("h1:9981", some sampleEntry)]
    activeHosts := ["h1:9981"]
    scanQueue := []
    blockHeight := 5
    randomHostsFn := fun _ _ => [] }

/-- A sample state whose sampler always yields one host. -/
def sampleHDB2 : HostDB :=
  { allHosts := []
    activeHosts := []
    scanQueue := []
    blockHeight := 0
    randomHostsFn := fun _ _ => [sampleHost] }

/-! The claims. -/

/-- C1: inserting a candidate whose address is already bound to an
entry with a byte-equal public key is a no-op: for every state and
every such candidate, `insertHost` returns the state unchanged — the
registry (hence the existing entry's FirstSeen and Reliability), the
active set and the scan queue are all untouched, so a second insert of
the same (address, public key) pair equals the first. -/
theorem insertHost_dedup_noop (isValid : NetAddress → Bool) (hdb : HostDB)
    (host : HostDBEntry) (known : hostEntry)
    (hfind : mapFind hdb.allHosts host.netAddress = some (some known))
    (hkey : host.publicKey.key = known.hostDBEntry.publicKey.key) :
    insertHost isValid hdb host = some hdb := by
  by_cases hv : isValid host.netAddress = false
  · simp [insertHost, hv]
  · simp [insertHost, hv, hfind, hkey]

/-- Witness for C1: re-inserting the sample host already stored in the
sample state (same address, same public key) leaves the state exactly
as it was. -/
theorem insertHost_dedup_noop_witness :
    insertHost (fun _ => true) sampleHDB sampleHost = some sampleHDB :=
  insertHost_dedup_noop (fun _ => true) sampleHDB sampleHost sampleEntry rfl rfl

/-- C2: when the address validator rejects the candidate's address,
`insertHost` returns with no mutation at all — registry, active set and
scan queue are unchanged — and no error value reaches the caller (the
function returns normally; `some` here means no panic, and the Go
function has no error result). -/
theorem insertHost_invalid_noop (isValid : NetAddress → Bool) (hdb : HostDB)
    (host : HostDBEntry) (hv : isValid host.netAddress = false) :
    insertHost isValid hdb host = some hdb := by
  simp [insertHost, hv]

/-- Witness for C2: inserting under a validator that rejects every
address leaves the sample state untouched. -/
theorem insertHost_invalid_noop_witness :
    insertHost (fun _ => false) sampleHDB sampleHost2 = some sampleHDB :=
  insertHost_invalid_noop (fun _ => false) sampleHDB sampleHost2 rfl

/-- C9: `ActiveHosts` is exactly the composition of reading the active
set's size with `RandomHosts` applied to that size and no exclusions. -/
theorem ActiveHosts_eq_randomHosts (hdb : HostDB) :
    ActiveHosts hdb = RandomHosts hdb hdb.activeHosts.length [] := rfl

/-- C10: the public lookup returns the zero entry and `false` both when
the address is absent and when it is bound to a nil pointer, and
returns the stored entry's embedded `HostDBEntry` with `true` exactly
when a non-nil entry exists — it never dereferences a nil entry. -/
theorem Host_nil_safe (hdb : HostDB) (addr : NetAddress) :
    (mapFind hdb.allHosts addr = none → Host hdb addr = (zeroHostDBEntry, false))
  ∧ (mapFind hdb.allHosts addr = some none → Host hdb addr = (zeroHostDBEntry, false))
  ∧ (∀ e, mapFind hdb.allHosts addr = some (some e) →
      Host hdb addr = (e.hostDBEntry, true)) := by
  refine ⟨fun h => ?_, fun h => ?_, fun e h => ?_⟩ <;> simp [Host, h]

/-- Witness for C10: on a state whose registry binds one address to a
nil pointer, the lookup of that address returns the zero entry and
`false`, and the lookup of an unknown address does as well. -/
theorem Host_nil_safe_witness :
    Host { sampleHDB with allHosts := [("h1:9981", none)] } "h1:9981"
        = (zeroHostDBEntry, false)
      ∧ Host sampleHDB "h9:9981" = (zeroHostDBEntry, false) :=
  ⟨(Host_nil_safe { sampleHDB with allHosts := [("h1:9981", none)] } "h1:9981").2.1 rfl,
   (Host_nil_safe sampleHDB "h9:9981").1 rfl⟩

/-- C3: for an entry scanned within the staleness window, `IsOffline`
never takes the scan path — the result is the same for every scan
function and the state comes back unchanged — and it answers `true`
exactly when the time since the entry's `LastSeen` exceeds the
threshold: seen within the window gives `false`, scanned-but-not-seen
within it gives `true`. -/
theorem IsOffline_fresh (scan : HostDB → hostEntry → HostDB) (hdb : HostDB)
    (now : Timestamp) (addr : NetAddress) (e : hostEntry)
    (hfind : mapFind hdb.allHosts addr = some (some e))
    (hfresh : now - e.lastScanned ≤ uptimeThreshold) :
    IsOffline scan hdb now addr
      = some (decide (now - e.lastSeen > uptimeThreshold), hdb) := by
  have hc : ¬ (now - e.lastScanned > uptimeThreshold) := not_lt.mpr hfresh
  simp [IsOffline, hfind, hc]

/-- Witness for C3: at instant 200 the sample entry (scanned at 100,
seen at 90) is fresh and was seen within the window, so the check says
not-offline and the state is untouched. -/
theorem IsOffline_fresh_witness :
    IsOffline (fun s _ => s) sampleHDB 200 "h1:9981" = some (false, sampleHDB) := by
  have h := IsOffline_fresh (fun s _ => s) sampleHDB 200 "h1:9981" sampleEntry
    rfl (by decide)
  have hd : (decide ((200 : Int) - sampleEntry.lastSeen > uptimeThreshold)) = false := by
    decide
  rw [hd] at h
  exact h

/-- C4: `IsOffline` answers `false` for an address absent from the
registry, for every scan function and with no state change; and when
the entry was stale, got scanned, and has vanished from the registry by
the re-read, it likewise answers `false` on the post-scan state — never
an error or a panic. -/
theorem IsOffline_unknown_false (hdb : HostDB) (now : Timestamp) (addr : NetAddress) :
    (mapFind hdb.allHosts addr = none →
      ∀ scan, IsOffline scan hdb now addr = some (false, hdb))
  ∧ (∀ scan e, mapFind hdb.allHosts addr = some (some e) →
      now - e.lastScanned > uptimeThreshold →
      mapFind (scan hdb e).allHosts addr = none →
      IsOffline scan hdb now addr = some (false, scan hdb e)) := by
  constructor
  · intro h scan
    simp [IsOffline, h]
  · intro scan e hfind hstale hvanish
    simp [IsOffline, hfind, hstale, hvanish]

/-- Witness for C4: an unknown address reports not-offline on the
sample state, and so does the sample entry when a scan that empties the
registry runs at an instant far past its scan window. -/
theorem IsOffline_unknown_false_witness :
    IsOffline (fun s _ => s) sampleHDB 0 "h9:9981" = some (false, sampleHDB)
  ∧ IsOffline (fun s _ => { s with allHosts := [] }) sampleHDB 1000000 "h1:9981"
      = some (false, { sampleHDB with allHosts := [] }) := by
  have h := IsOffline_unknown_false sampleHDB 0 "h9:9981"
  have h2 := IsOffline_unknown_false sampleHDB 1000000 "h1:9981"
  exact ⟨h.1 rfl _, h2.2 _ sampleEntry rfl (by decide) rfl⟩

/-- C5: `AverageContractPrice` samples via `RandomHosts 18`; an empty
sample yields the zero currency with no division performed, and a
non-empty sample yields the sum of the sampled contract prices divided
by the actual sample size, whose length is non-zero — the divisor is
never zero. -/
theorem AverageContractPrice_safe (hdb : HostDB) :
    (RandomHosts hdb 18 [] = [] → AverageContractPrice hdb = 0)
  ∧ (RandomHosts hdb 18 [] ≠ [] →
      (RandomHosts hdb 18 []).length ≠ 0
    ∧ AverageContractPrice hdb =
        ((RandomHosts hdb 18 []).foldl (fun acc host => acc + host.contractPrice) 0)
          / (RandomHosts hdb 18 []).length) := by
  constructor
  · intro h
    simp [AverageContractPrice, h]
  · intro h
    have hlen : (RandomHosts hdb 18 []).length ≠ 0 := by
      simpa [List.length_eq_zero] using h
    exact ⟨hlen, by simp [AverageContractPrice, hlen]⟩

/-- Witness for C5: on the sample state whose sampler yields exactly
one host of contract price 10, the average is 10 and the divisor was
non-zero; on the sample state with an empty sampler the average is the
zero currency. -/
theorem AverageContractPrice_safe_witness :
    ((RandomHosts sampleHDB2 18 []).length ≠ 0 ∧ AverageContractPrice sampleHDB2 = 10)
  ∧ AverageContractPrice sampleHDB = 0 := by
  have h := (AverageContractPrice_safe sampleHDB2).2 (by decide)
  have h0 := (AverageContractPrice_safe sampleHDB).1 rfl
  exact ⟨⟨h.1, h.2.trans (by decide)⟩, h0⟩

/-- C6: `removeHost` always returns a nil error; it drops the address
from the active set and deletes it from the registry, after which the
lookup misses and the address is out of the active set; it is
idempotent — a second removal returns the very same state — and on an
address absent from both maps it is a no-op. -/
theorem removeHost_total (hdb : HostDB) (addr : NetAddress) :
    (removeHost hdb addr).2 = none
  ∧ (removeHost hdb addr).1.allHosts = mapDelete hdb.allHosts addr
  ∧ (removeHost hdb addr).1.activeHosts
      = hdb.activeHosts.filter (fun a => decide (a ≠ addr))
  ∧ mapFind (removeHost hdb addr).1.allHosts addr = none
  ∧ addr ∉ (removeHost hdb addr).1.activeHosts
  ∧ removeHost (removeHost hdb addr).1 addr = removeHost hdb addr
  ∧ (mapFind hdb.allHosts addr = none → addr ∉ hdb.activeHosts →
      (removeHost hdb addr).1 = hdb) := by
  refine ⟨rfl, rfl, rfl, mapFind_mapDelete_self _ _, not_mem_filterNe _ _, ?_, ?_⟩
  · cases hdb
    simp [removeHost, filterNe_idem, mapDelete_idem]
  · intro h1 h2
    cases hdb
    simp [removeHost]
    exact ⟨mapDelete_of_find_none _ _ h1, fun a ha e => h2 (e ▸ ha)⟩

/-- Witness for C6: removing the known sample address returns a nil
error and the address can no longer be found, and removing an address
unknown to the other sample state leaves that state exactly as it
was. -/
theorem removeHost_total_witness :
    (removeHost sampleHDB "h1:9981").2 = none
  ∧ mapFind (removeHost sampleHDB "h1:9981").1.allHosts "h1:9981" = none
  ∧ (removeHost sampleHDB2 "h9:9981").1 = sampleHDB2 := by
  have h := removeHost_total sampleHDB "h1:9981"
  have h2 := removeHost_total sampleHDB2 "h9:9981"
  exact ⟨h.1, h.2.2.2.1, h2.2.2.2.2.2.2 rfl (by decide)⟩

/-- C7: inserting a valid candidate that is new to the registry, or
known only under a different public key, stores a fresh entry whose
FirstSeen is the current block height, whose Reliability is the default
constant and whose embedded settings are the candidate itself, appends
exactly that entry to the scan queue, and grows the registry by at most
one binding. -/
theorem insertHost_new_entry (isValid : NetAddress → Bool) (hdb : HostDB)
    (host : HostDBEntry)
    (hvalid : isValid host.netAddress = true)
    (hnew : mapFind hdb.allHosts host.netAddress = none ∨
      ∃ known, mapFind hdb.allHosts host.netAddress = some (some known) ∧
        host.publicKey.key ≠ known.hostDBEntry.publicKey.key) :
    insertHost isValid hdb host =
      some { hdb with
        allHosts := mapInsert hdb.allHosts host.netAddress
          (some (newHostEntry hdb host))
        scanQueue := hdb.scanQueue ++ [newHostEntry hdb host] }
  ∧ (newHostEntry hdb host).firstSeen = hdb.blockHeight
  ∧ (newHostEntry hdb host).reliability = DefaultReliability
  ∧ (newHostEntry hdb host).hostDBEntry = host
  ∧ (mapInsert hdb.allHosts host.netAddress
      (some (newHostEntry hdb host))).length ≤ hdb.allHosts.length + 1 := by
  refine ⟨?_, rfl, rfl, rfl, ?_⟩
  · rcases hnew with h | ⟨known, hfind, hkey⟩
    · simp [insertHost, hvalid, h, queueHostEntry]
    · simp [insertHost, hvalid, hfind, hkey, queueHostEntry]
  · simpa [mapInsert] using
      Nat.succ_le_succ (length_mapDelete_le hdb.allHosts host.netAddress)

/-- Witness for C7: inserting the second sample host (a brand-new
address) into the sample state yields exactly the state with the fresh
entry stored and enqueued. -/
theorem insertHost_new_entry_witness :
    insertHost (fun _ => true) sampleHDB sampleHost2 =
      some { sampleHDB with
        allHosts := mapInsert sampleHDB.allHosts sampleHost2.netAddress
          (some (newHostEntry sampleHDB sampleHost2))
        scanQueue := sampleHDB.scanQueue ++ [newHostEntry sampleHDB sampleHost2] } :=
  (insertHost_new_entry (fun _ => true) sampleHDB sampleHost2 rfl
    (Or.inl (by decide))).1

/-- C8: inserting a valid candidate at an address already known but
under a different public key skips the dedup guard and rebinds the
address to a freshly constructed entry — FirstSeen reset to the current
height, Reliability reset to the default — which is enqueued for
scanning. -/
theorem insertHost_rebind (isValid : NetAddress → Bool) (hdb : HostDB)
    (host : HostDBEntry) (known : hostEntry)
    (hvalid : isValid host.netAddress = true)
    (hfind : mapFind hdb.allHosts host.netAddress = some (some known))
    (hkey : host.publicKey.key ≠ known.hostDBEntry.publicKey.key) :
    ∃ hdb', insertHost isValid hdb host = some hdb'
      ∧ mapFind hdb'.allHosts host.netAddress
          = some (some (newHostEntry hdb host))
      ∧ hdb'.scanQueue = hdb.scanQueue ++ [newHostEntry hdb host]
      ∧ (newHostEntry hdb host).firstSeen = hdb.blockHeight
      ∧ (newHostEntry hdb host).reliability = DefaultReliability := by
  refine ⟨{ hdb with
      allHosts := mapInsert hdb.allHosts host.netAddress
        (some (newHostEntry hdb host))
      scanQueue := hdb.scanQueue ++ [newHostEntry hdb host] },
    ?_, mapFind_mapInsert_self _ _ _, rfl, rfl, rfl⟩
  simp [insertHost, hvalid, hfind, hkey, queueHostEntry]

/-- Witness for C8: inserting a candidate with a different public key
at the sample state's known address rebinds that address to the freshly
built entry. -/
theorem insertHost_rebind_witness :
    ∃ hdb', insertHost (fun _ => true) sampleHDB sampleHost3 = some hdb'
      ∧ mapFind hdb'.allHosts sampleHost3.netAddress
          = some (some (newHostEntry sampleHDB sampleHost3)) := by
  obtain ⟨hdb', h1, h2, _, _, _⟩ :=
    insertHost_rebind (fun _ => true) sampleHDB sampleHost3 sampleEntry
      rfl rfl (by decide)
  exact ⟨hdb', h1, h2⟩

end Sia
